import Mathlib

/-!
Verification of the Hanoi air-quality nowcasting dashboard
(`app.py`, `utils.py`, `aqi_data.py`).

The development shallowly embeds the data-handling core of the repository:

* a `Table α` is a time-indexed series, a list of `(timestamp, value)`
  rows with timestamps measured in hours;
* `combineSeries` / `get_combined_data` embed the concat / `sort_index` /
  drop-duplicates-keep-last merge of `app.py.get_combined_data`;
* `pm25_to_vn_aqi` and `get_health_recommendations` embed the advisory
  functions of `utils.py`, with real concentrations as rationals and the
  Python `int` truncation made explicit (`pyInt`);
* `refit_ets_model`, `refit_arima_model`, `refit_arimax_model` embed the
  refit-with-fallback orchestration, with the external fetches and the
  statsmodels fit represented as `Except`-valued inputs;
* `forecast_timestamps` embeds the `pd.date_range(last + 1h, periods, 'h')`
  grid used by `create_forecast_plot` and the forecast table;
* `year_interval` and the hour-grid semantics (`toHours`, `hourGrid`)
  embed the per-year splitting of a datetime range in `utils.py`.
-/

/-- A time-indexed table: rows of (timestamp in hours, value), in row order.
Embeds the pandas time-indexed `DataFrame`s of the repository. -/
abbrev Table (α : Type) : Type := List (Nat × α)

/-- The keys (timestamp index) of a table, in row order. -/
def tableKeys {α : Type} (l : Table α) : List Nat := l.map Prod.fst

/-- Row ordering by timestamp (non-strict). -/
abbrev keyLe {α : Type} (p q : Nat × α) : Prop := p.1 ≤ q.1

/-- Row ordering by timestamp (strict): a sorted, duplicate-free index. -/
abbrev keyLt {α : Type} (p q : Nat × α) : Prop := p.1 < q.1

/-- First value stored at timestamp `t` (pandas label lookup on a unique
index). -/
def lookupKey {α : Type} (t : Nat) : Table α → Option α
  | [] => none
  | x :: xs => if x.1 = t then some x.2 else lookupKey t xs

/-- Last value stored at timestamp `t`, i.e. the value from the
most-recently-supplied row with that timestamp. -/
def lookupLast {α : Type} (t : Nat) : Table α → Option α
  | [] => none
  | x :: xs =>
    match lookupLast t xs with
    | some v => some v
    | none => if x.1 = t then some x.2 else none

/-- Stable insertion of a row into a timestamp-sorted table: the row goes
in front of the first row with a timestamp `≥` its own. -/
def insertByKey {α : Type} (x : Nat × α) : Table α → Table α
  | [] => [x]
  | y :: ys => if x.1 ≤ y.1 then x :: y :: ys else y :: insertByKey x ys

/-- Stable sort of a table by timestamp; embeds `DataFrame.sort_index()`. -/
def sortByKey {α : Type} : Table α → Table α
  | [] => []
  | x :: xs => insertByKey x (sortByKey xs)

/-- Keep, for each timestamp, only the last row carrying it; embeds
`df[~df.index.duplicated(keep='last')]`. -/
def dedupKeepLast {α : Type} : Table α → Table α
  | [] => []
  | x :: xs =>
    if xs.any (fun y => y.1 == x.1) then dedupKeepLast xs
    else x :: dedupKeepLast xs

/-- One arm of `app.py.get_combined_data`: if the real-time table is
present (`is not None`) and non-empty, concatenate it after the training
table, sort by timestamp and drop duplicate timestamps keeping the last
row; otherwise return the training table unchanged. -/
def combineSeries {α : Type} (training : Table α) (realtime : Option (Table α)) : Table α :=
  match realtime with
  | some rt => if rt.isEmpty then training else dedupKeepLast (sortByKey (training ++ rt))
  | none => training

/-- `app.py.get_combined_data`: combine historical training data with
real-time data, for the air and the weather table. -/
def get_combined_data {α : Type} (training_air training_weather : Table α)
    (realtime_air realtime_weather : Option (Table α)) : Table α × Table α :=
  (combineSeries training_air realtime_air, combineSeries training_weather realtime_weather)

/-- `app.py.load_realtime_data`: a successful fetch yields the two
real-time tables and the update stamp with no error; a raised exception is
caught and turned into `(None, None, None, str(e))`. -/
def load_realtime_data {α β : Type} (fetch : Except String (Table α × Table α × β)) :
    Option (Table α) × Option (Table α) × Option β × Option String :=
  match fetch with
  | .ok (air_rt, weather_rt, last_update) => (some air_rt, some weather_rt, some last_update, none)
  | .error e => (none, none, none, some e)

/-- Python `int(...)` on a real value: truncation toward zero. -/
def pyInt (q : ℚ) : ℤ := if 0 ≤ q then ⌊q⌋ else ⌈q⌉

/-- Python `round(x, 2)`: round to 2 decimal places, ties to even. -/
def pyRound2 (q : ℚ) : ℚ :=
  (if q * 100 - ⌊q * 100⌋ = 1 / 2 then
    (if 2 ∣ ⌊q * 100⌋ then ⌊q * 100⌋ else ⌊q * 100⌋ + 1)
  else round (q * 100)) / 100

/-- The record returned by `utils.py.pm25_to_vn_aqi`. -/
structure AqiInfo where
  pm25 : ℚ
  aqi : ℤ
  category : String
  color : String
  health_advisory : String
  icon : String

/-- `utils.py.pm25_to_vn_aqi`: convert a PM2.5 concentration (μg/m³) to
the Vietnamese AQI category, numeric index (clipped at 500), display
color, advisory text and icon. -/
def pm25_to_vn_aqi (pm25_value : ℚ) : AqiInfo :=
  let r : String × ℤ × String × String × String :=
    if pm25_value ≤ 25 then
      ("Good", pyInt ((50 / 25) * pm25_value), "#00E400",
       "Air quality is good. Ideal for outdoor activities.", "😊")
    else if pm25_value ≤ 50 then
      ("Moderate", pyInt (50 + (50 / 25) * (pm25_value - 25)), "#FFFF00",
       "Air quality is acceptable. Sensitive individuals should consider reducing prolonged outdoor exertion.", "😐")
    else if pm25_value ≤ 90 then
      ("Unhealthy for Sensitive Groups", pyInt (100 + (50 / 40) * (pm25_value - 50)), "#FF7E00",
       "Sensitive groups (children, elderly, people with respiratory conditions) should reduce prolonged outdoor activities.", "😷")
    else if pm25_value ≤ 150 then
      ("Unhealthy", pyInt (150 + (50 / 60) * (pm25_value - 90)), "#FF0000",
       "Everyone should reduce prolonged outdoor exertion. Sensitive groups should avoid outdoor activities.", "⚠️")
    else if pm25_value ≤ 250 then
      ("Very Unhealthy", pyInt (200 + (100 / 100) * (pm25_value - 150)), "#8F3F97",
       "Health alert! Everyone should avoid prolonged outdoor activities. Wear masks if going outside.", "🚨")
    else
      ("Hazardous", pyInt (300 + (200 / 250) * min (pm25_value - 250) 250), "#7E0023",
       "Health emergency! Everyone should avoid all outdoor activities. Stay indoors with air purifiers.", "☠️")
  { pm25 := pyRound2 pm25_value
    aqi := min r.2.1 500
    category := r.1
    color := r.2.2.1
    health_advisory := r.2.2.2.1
    icon := r.2.2.2.2 }

/-- The pre-truncation AQI value of each branch of `pm25_to_vn_aqi`
(the argument of `int(...)` in the source). -/
def vn_aqi_pre (p : ℚ) : ℚ :=
  if p ≤ 25 then (50 / 25) * p
  else if p ≤ 50 then 50 + (50 / 25) * (p - 25)
  else if p ≤ 90 then 100 + (50 / 40) * (p - 50)
  else if p ≤ 150 then 150 + (50 / 60) * (p - 90)
  else if p ≤ 250 then 200 + (100 / 100) * (p - 150)
  else 300 + (200 / 250) * min (p - 250) 250

/-- The six category labels, in increasing-severity order. -/
def vnAqiTiers : List String :=
  ["Good", "Moderate", "Unhealthy for Sensitive Groups", "Unhealthy",
   "Very Unhealthy", "Hazardous"]

/-- One recommendation record of `utils.py.get_health_recommendations`. -/
structure HealthRec where
  general : String
  sensitive : String
  activities : String
deriving DecidableEq

/-- The "Good" entry of the recommendations dictionary. -/
def rec_good : HealthRec :=
  { general := "Perfect day for outdoor activities!"
    sensitive := "No restrictions for sensitive groups."
    activities := "✅ Running, cycling, outdoor sports\n✅ Open windows for ventilation\n✅ All outdoor activities recommended" }

/-- The "Moderate" entry of the recommendations dictionary. -/
def rec_moderate : HealthRec :=
  { general := "Air quality is acceptable for most people."
    sensitive := "Unusually sensitive individuals may experience minor symptoms."
    activities := "✅ Most outdoor activities OK\n⚠️ Sensitive groups: limit prolonged exertion\n✅ Normal outdoor activities for most" }

/-- The "Unhealthy for Sensitive Groups" entry of the recommendations
dictionary. -/
def rec_usg : HealthRec :=
  { general := "General public can enjoy outdoor activities."
    sensitive := "Children, elderly, and people with heart/lung disease should reduce outdoor activities."
    activities := "⚠️ Sensitive groups: limit outdoor time\n⚠️ Consider moving strenuous activities indoors\n✅ General public: outdoor activities OK with awareness" }

/-- The "Unhealthy" entry of the recommendations dictionary. -/
def rec_unhealthy : HealthRec :=
  { general := "Everyone may experience health effects."
    sensitive := "Sensitive groups may experience more serious effects. Avoid outdoor activities."
    activities := "❌ Sensitive groups: stay indoors\n⚠️ General public: reduce prolonged outdoor exertion\n🏠 Consider indoor alternatives for exercise\n😷 Wear N95 masks if going outside" }

/-- The "Very Unhealthy" entry of the recommendations dictionary. -/
def rec_very_unhealthy : HealthRec :=
  { general := "Health alert! Everyone should limit outdoor activities."
    sensitive := "Sensitive groups should stay indoors and keep activity levels low."
    activities := "❌ Avoid all prolonged outdoor activities\n🏠 Stay indoors with windows closed\n😷 Wear N95/KF94 masks if must go outside\n💨 Use air purifiers indoors\n⚠️ Cancel outdoor events" }

/-- The "Hazardous" entry of the recommendations dictionary. -/
def rec_hazardous : HealthRec :=
  { general := "Health emergency! Everyone should avoid outdoor activities."
    sensitive := "Everyone should stay indoors and avoid all physical activities outdoors."
    activities := "🚨 STAY INDOORS - Health Emergency!\n❌ Cancel all outdoor activities\n😷 Wear N95 masks even for brief outdoor exposure\n💨 Use air purifiers at maximum setting\n🪟 Seal windows and doors\n🏥 Seek medical attention if experiencing symptoms" }

/-- The recommendations dictionary of `utils.py.get_health_recommendations`. -/
def healthRecTable : List (String × HealthRec) :=
  [("Good", rec_good), ("Moderate", rec_moderate),
   ("Unhealthy for Sensitive Groups", rec_usg), ("Unhealthy", rec_unhealthy),
   ("Very Unhealthy", rec_very_unhealthy), ("Hazardous", rec_hazardous)]

/-- `utils.py.get_health_recommendations`: detailed health recommendations
for an AQI category label; `dict.get` falls back to the "Good" entry on an
unknown label. -/
def get_health_recommendations (aqi_category : String) : HealthRec :=
  (healthRecTable.lookup aqi_category).getD rec_good

/-- `app.py.refit_ets_model`: fetch recent archive data and real-time
data, merge them after the training data (newest wins), and refit the ETS
model on the merged series.  The two fetches and the statsmodels fit are
external effects, embedded as `Except`-valued inputs; any failure is
caught and returned as `(None, training_air, str(e))`. -/
def refit_ets_model {μ : Type} (training_air : Table ℚ)
    (get_aqi_data : Except String (Table ℚ))
    (get_latest_realtime_data : Except String (Table ℚ))
    (ets_fit : Table ℚ → Except String μ) :
    Option μ × Table ℚ × Option String :=
  match get_aqi_data with
  | .error e => (none, training_air, some e)
  | .ok recent_data =>
    match get_latest_realtime_data with
    | .error e => (none, training_air, some e)
    | .ok realtime_air =>
      let combined := dedupKeepLast (sortByKey (training_air ++ recent_data ++ realtime_air))
      match ets_fit combined with
      | .error e => (none, training_air, some e)
      | .ok fitted_model => (some fitted_model, combined, none)

/-- `app.py.refit_arima_model`: same fetch/merge/fit-with-fallback shape
as the ETS refit, with the ARIMA `order` passed to the fit. -/
def refit_arima_model {μ : Type} (training_air : Table ℚ)
    (get_aqi_data : Except String (Table ℚ))
    (get_latest_realtime_data : Except String (Table ℚ))
    (arima_fit : Table ℚ → ℕ × ℕ × ℕ → Except String μ)
    (order : ℕ × ℕ × ℕ := (2, 0, 1)) :
    Option μ × Table ℚ × Option String :=
  match get_aqi_data with
  | .error e => (none, training_air, some e)
  | .ok recent_data =>
    match get_latest_realtime_data with
    | .error e => (none, training_air, some e)
    | .ok realtime_air =>
      let combined := dedupKeepLast (sortByKey (training_air ++ recent_data ++ realtime_air))
      match arima_fit combined order with
      | .error e => (none, training_air, some e)
      | .ok fitted_model => (some fitted_model, combined, none)

/-- `app.py.refit_arimax_model`: fetch recent air and weather data plus
real-time data, merge both series, and fit SARIMAX on the merged air
series with the merged weather series as exogenous input; any failure is
caught and returned as `(None, training_air, str(e))`. -/
def refit_arimax_model {μ : Type} (training_air training_weather : Table ℚ)
    (get_aqi_data : Except String (Table ℚ))
    (get_weather_data : Except String (Table ℚ))
    (get_latest_realtime_data : Except String (Table ℚ × Table ℚ))
    (sarimax_fit : Table ℚ → Table ℚ → ℕ × ℕ × ℕ → Except String μ)
    (order : ℕ × ℕ × ℕ := (2, 0, 1)) :
    Option μ × Table ℚ × Option String :=
  match get_aqi_data with
  | .error e => (none, training_air, some e)
  | .ok recent_air =>
    match get_weather_data with
    | .error e => (none, training_air, some e)
    | .ok recent_weather =>
      match get_latest_realtime_data with
      | .error e => (none, training_air, some e)
      | .ok rt =>
        let combined_air := dedupKeepLast (sortByKey (training_air ++ recent_air ++ rt.1))
        let combined_weather := dedupKeepLast (sortByKey (training_weather ++ recent_weather ++ rt.2))
        match sarimax_fit combined_air combined_weather order with
        | .error e => (none, training_air, some e)
        | .ok fitted_model => (some fitted_model, combined_air, none)

/-- The request path of `app.py.main` around a refit (lines 524-530 and
the analogous ARIMA/ARIMAX blocks): if the refit returned an error
message, warn (`true`) and keep the pre-trained model and the unchanged
combined table; otherwise use the refitted model and its updated table. -/
def handle_refit_result {μ : Type} (pretrained : μ) (air_df : Table ℚ)
    (r : Option μ × Table ℚ × Option String) : Option μ × Table ℚ × Bool :=
  match r.2.2 with
  | some _ => (some pretrained, air_df, true)
  | none => (r.1, r.2.1, false)

/-- The ETS/ARIMA refit pipeline fails: a fetch raises, or the fit raises
on the merged data. -/
def refitFetchOrFitFails {μ : Type} (fa fr : Except String (Table ℚ)) (training : Table ℚ)
    (fit : Table ℚ → Except String μ) : Prop :=
  (∃ e, fa = Except.error e) ∨ (∃ e, fr = Except.error e) ∨
  (∃ recent rt e, fa = Except.ok recent ∧ fr = Except.ok rt ∧
    fit (dedupKeepLast (sortByKey (training ++ recent ++ rt))) = Except.error e)

/-- The ARIMAX refit pipeline fails: one of the three fetches raises, or
the fit raises on the merged data. -/
def arimaxFetchOrFitFails {μ : Type} (fa fw : Except String (Table ℚ))
    (frt : Except String (Table ℚ × Table ℚ))
    (training_air training_weather : Table ℚ)
    (fit : Table ℚ → Table ℚ → Except String μ) : Prop :=
  (∃ e, fa = Except.error e) ∨ (∃ e, fw = Except.error e) ∨
  (∃ e, frt = Except.error e) ∨
  (∃ recent_air recent_weather rt e, fa = Except.ok recent_air ∧
    fw = Except.ok recent_weather ∧ frt = Except.ok rt ∧
    fit (dedupKeepLast (sortByKey (training_air ++ recent_air ++ rt.1)))
      (dedupKeepLast (sortByKey (training_weather ++ recent_weather ++ rt.2))) = Except.error e)

/-- The forecast timestamp grid of `app.py.create_forecast_plot` and the
forecast table in `main`: `pd.date_range(start=last_timestamp + 1h,
periods=forecast_hours, freq='h')` over the last observed timestamp of the
historical table (`index[-1]`, absent on an empty table). -/
def forecast_timestamps {α : Type} (historical_data : Table α) (forecast_hours : Nat) :
    Option (List Nat) :=
  (tableKeys historical_data).getLast?.map
    (fun last_timestamp => List.range' (last_timestamp + 1) forecast_hours)

/-- A datetime string at hourly granularity, `%Y-%m-%dT%H:%M:%S` with zero
minutes and seconds. -/
structure DTime where
  year : Nat
  month : Nat
  day : Nat
  hour : Nat
deriving DecidableEq

/-- `utils.py.year_interval`: split a datetime range into one interval per
calendar year; the first interval starts at `datetime_from` and ends at
`{start_year}-12-31T23:00:00`, full middle years run from Jan 1 00:00:00
to Dec 31 23:00:00, and the last interval ends at `datetime_to`. -/
def year_interval (datetime_from datetime_to : DTime) : List (DTime × DTime) :=
  let start_year := datetime_from.year
  let end_year := datetime_to.year
  if start_year = end_year then [(datetime_from, datetime_to)]
  else
    ((datetime_from, ⟨start_year, 12, 31, 23⟩) ::
      (List.range' (start_year + 1) (end_year - (start_year + 1))).map
        (fun year => (⟨year, 1, 1, 0⟩, ⟨year, 12, 31, 23⟩)))
    ++ [(⟨end_year, 1, 1, 0⟩, datetime_to)]

/-- Gregorian leap-year rule. -/
def isLeap (y : Nat) : Bool := (y % 4 == 0 && y % 100 != 0) || y % 400 == 0

/-- Days in a calendar year. -/
def daysInYear (y : Nat) : Nat := if isLeap y then 366 else 365

/-- Days in all calendar years before year `y` (proleptic, from year 0). -/
def daysBeforeYear : Nat → Nat
  | 0 => 0
  | y + 1 => daysBeforeYear y + daysInYear y

/-- Month lengths of a (leap or common) year. -/
def monthLengths (leap : Bool) : List Nat :=
  [31, if leap then 29 else 28, 31, 30, 31, 30, 31, 31, 30, 31, 30, 31]

/-- Days in the months before month `m` (1-based) of a year. -/
def daysBeforeMonth (leap : Bool) (m : Nat) : Nat :=
  ((monthLengths leap).take (m - 1)).sum

/-- Hour index of a datetime on the global hourly grid (hours from
0000-01-01T00:00:00): the denotation of a timestamp string. -/
def toHours (d : DTime) : Nat :=
  24 * (daysBeforeYear d.year + daysBeforeMonth (isLeap d.year) d.month + (d.day - 1)) + d.hour

/-- A calendar-valid datetime at hourly granularity. -/
def ValidDT (d : DTime) : Prop :=
  1 ≤ d.month ∧ d.month ≤ 12 ∧ 1 ≤ d.day ∧
  d.day ≤ (monthLengths (isLeap d.year)).getD (d.month - 1) 0 ∧ d.hour ≤ 23

/-- The hourly grid of one interval, as produced by
`utils.py.timestamp_index_list` (`pd.date_range(from, to, freq='h')`):
all hour indices from the start to the end inclusive. -/
def hourGrid (iv : DTime × DTime) : List Nat :=
  List.range' (toHours iv.1) (toHours iv.2 + 1 - toHours iv.1)

/-- Concatenation of the hourly grids of a list of intervals, as in the
per-interval fetch loop of `get_aqi_data`. -/
def concatGrids (ivs : List (DTime × DTime)) : List Nat :=
  ivs.foldr (fun iv acc => hourGrid iv ++ acc) []

theorem lookupKey_cons_eq {α : Type} (t : Nat) (x : Nat × α) (xs : Table α)
    (h : x.1 = t) : lookupKey t (x :: xs) = some x.2 := by
  simp [lookupKey, h]

theorem lookupKey_cons_ne {α : Type} (t : Nat) (x : Nat × α) (xs : Table α)
    (h : x.1 ≠ t) : lookupKey t (x :: xs) = lookupKey t xs := by
  simp [lookupKey, h]

theorem lookupLast_swap {α : Type} (t : Nat) (a b : Nat × α) (l : Table α)
    (h : a.1 ≠ b.1) : lookupLast t (a :: b :: l) = lookupLast t (b :: a :: l) := by
  cases hl : lookupLast t l with
  | some v => simp [lookupLast, hl]
  | none =>
    by_cases ha : a.1 = t <;> by_cases hb : b.1 = t
    · exact absurd (ha.trans hb.symm) h
    · simp [lookupLast, hl, ha, hb]
    · simp [lookupLast, hl, ha, hb]
    · simp [lookupLast, hl, ha, hb]

theorem lookupLast_insertByKey {α : Type} (t : Nat) (x : Nat × α) (s : Table α) :
    lookupLast t (insertByKey x s) = lookupLast t (x :: s) := by
  induction s with
  | nil => rfl
  | cons y ys ih =>
    by_cases h : x.1 ≤ y.1
    · simp [insertByKey, h]
    · have hxy : x.1 ≠ y.1 := by omega
      rw [show insertByKey x (y :: ys) = y :: insertByKey x ys by
        simp [insertByKey, h]]
      rw [lookupLast_swap t x y ys hxy]
      simp only [lookupLast, ih]

theorem lookupLast_sortByKey {α : Type} (t : Nat) (l : Table α) :
    lookupLast t (sortByKey l) = lookupLast t l := by
  induction l with
  | nil => rfl
  | cons x xs ih =>
    rw [show sortByKey (x :: xs) = insertByKey x (sortByKey xs) from rfl]
    rw [lookupLast_insertByKey]
    simp only [lookupLast, ih]

theorem lookupLast_eq_none_of_forall {α : Type} (t : Nat) (l : Table α)
    (h : ∀ p ∈ l, p.1 ≠ t) : lookupLast t l = none := by
  induction l with
  | nil => rfl
  | cons x xs ih =>
    have hx : x.1 ≠ t := h x (List.mem_cons_self x xs)
    have hxs := ih (fun p hp => h p (List.mem_cons_of_mem x hp))
    simp [lookupLast, hxs, hx]

theorem lookupLast_isSome_of_mem {α : Type} (t : Nat) (l : Table α)
    (h : t ∈ tableKeys l) : ∃ v, lookupLast t l = some v := by
  induction l with
  | nil => simp [tableKeys] at h
  | cons x xs ih =>
    simp only [tableKeys, List.map_cons, List.mem_cons] at h
    cases hl : lookupLast t xs with
    | some v => exact ⟨v, by simp [lookupLast, hl]⟩
    | none =>
      rcases h with h | h
      · exact ⟨x.2, by simp [lookupLast, hl, h.symm]⟩
      · obtain ⟨v, hv⟩ := ih h
        rw [hv] at hl
        cases hl

theorem lookupKey_dedupKeepLast {α : Type} (t : Nat) (l : Table α) :
    lookupKey t (dedupKeepLast l) = lookupLast t l := by
  induction l with
  | nil => rfl
  | cons x xs ih =>
    simp only [dedupKeepLast]
    by_cases hany : ∃ p ∈ xs, p.1 = x.1
    · have hb : (xs.any fun y => y.1 == x.1) = true := by
        rcases hany with ⟨p, hp, he⟩
        exact List.any_eq_true.mpr ⟨p, hp, by simpa using he⟩
      rw [if_pos hb, ih]
      by_cases hx : x.1 = t
      · obtain ⟨p, hp, he⟩ := hany
        obtain ⟨v, hv⟩ := lookupLast_isSome_of_mem t xs
          (List.mem_map.mpr ⟨p, hp, he.trans hx⟩)
        simp [lookupLast, hv]
      · cases hl : lookupLast t xs <;> simp [lookupLast, hl, hx]
    · have hb : (xs.any fun y => y.1 == x.1) = false := by
        rw [List.any_eq_false]
        intro p hp
        simp only [beq_iff_eq]
        exact fun he => hany ⟨p, hp, he⟩
      rw [if_neg (by simp [hb]), lookupKey]
      by_cases hx : x.1 = t
      · have hnone : lookupLast t xs = none :=
          lookupLast_eq_none_of_forall t xs
            (fun p hp he => hany ⟨p, hp, he.trans hx.symm⟩)
        simp [lookupLast, hx, hnone]
      · rw [if_neg hx, ih]
        cases hl : lookupLast t xs <;> simp [lookupLast, hl, hx]

theorem mem_insertByKey {α : Type} (z x : Nat × α) (s : Table α) :
    z ∈ insertByKey x s ↔ z = x ∨ z ∈ s := by
  induction s with
  | nil => simp [insertByKey]
  | cons y ys ih =>
    by_cases h : x.1 ≤ y.1
    · simp [insertByKey, h]
    · simp only [insertByKey, if_neg h, List.mem_cons, ih]
      tauto

theorem pairwise_le_insertByKey {α : Type} (x : Nat × α) (s : Table α)
    (hs : List.Pairwise keyLe s) : List.Pairwise keyLe (insertByKey x s) := by
  induction s with
  | nil => simp [insertByKey]
  | cons y ys ih =>
    obtain ⟨hy, hys⟩ := List.pairwise_cons.mp hs
    by_cases h : x.1 ≤ y.1
    · rw [show insertByKey x (y :: ys) = x :: y :: ys by simp [insertByKey, h]]
      refine List.pairwise_cons.mpr ⟨?_, hs⟩
      intro z hz
      rcases List.mem_cons.mp hz with rfl | hz
      · exact h
      · exact le_trans h (hy z hz)
    · rw [show insertByKey x (y :: ys) = y :: insertByKey x ys by simp [insertByKey, h]]
      refine List.pairwise_cons.mpr ⟨?_, ih hys⟩
      intro z hz
      rcases (mem_insertByKey z x ys).mp hz with rfl | hz
      · exact le_of_not_le h
      · exact hy z hz

theorem pairwise_le_sortByKey {α : Type} (l : Table α) :
    List.Pairwise keyLe (sortByKey l) := by
  induction l with
  | nil => simp [sortByKey]
  | cons x xs ih => exact pairwise_le_insertByKey x _ ih

theorem dedupKeepLast_sublist {α : Type} (l : Table α) :
    List.Sublist (dedupKeepLast l) l := by
  induction l with
  | nil => simp [dedupKeepLast]
  | cons x xs ih =>
    simp only [dedupKeepLast]
    split
    · exact ih.trans (List.sublist_cons_self x xs)
    · exact ih.cons₂ x

theorem pairwise_lt_dedupKeepLast {α : Type} (l : Table α)
    (hs : List.Pairwise keyLe l) : List.Pairwise keyLt (dedupKeepLast l) := by
  induction l with
  | nil => simp [dedupKeepLast]
  | cons x xs ih =>
    obtain ⟨hx, hxs⟩ := List.pairwise_cons.mp hs
    simp only [dedupKeepLast]
    split
    · exact ih hxs
    · rename_i hb
      refine List.pairwise_cons.mpr ⟨?_, ih hxs⟩
      intro z hz
      have hzmem : z ∈ xs := (dedupKeepLast_sublist xs).subset hz
      have hle : x.1 ≤ z.1 := hx z hzmem
      have hne : z.1 ≠ x.1 := fun he =>
        hb (List.any_eq_true.mpr ⟨z, hzmem, by simpa using he⟩)
      exact lt_of_le_of_ne hle (fun h => hne h.symm)

theorem nodup_tableKeys_of_pairwise_lt {α : Type} (l : Table α)
    (h : List.Pairwise keyLt l) : (tableKeys l).Nodup := by
  unfold tableKeys
  exact (List.pairwise_map).mpr (h.imp fun hlt => Nat.ne_of_lt hlt)

theorem lookupLast_eq_lookupKey_of_nodup {α : Type} (t : Nat) (l : Table α)
    (h : (tableKeys l).Nodup) : lookupLast t l = lookupKey t l := by
  induction l with
  | nil => rfl
  | cons x xs ih =>
    simp only [tableKeys, List.map_cons, List.nodup_cons] at h
    obtain ⟨hx, hxs⟩ := h
    by_cases hxt : x.1 = t
    · have hnone : lookupLast t xs = none :=
        lookupLast_eq_none_of_forall t xs
          (fun p hp he => hx (List.mem_map.mpr ⟨p, hp, he.trans hxt.symm⟩))
      simp [lookupLast, lookupKey, hnone, hxt]
    · have := ih hxs
      cases hl : lookupLast t xs with
      | some v => rw [hl] at this; simp [lookupLast, lookupKey, hl, hxt, this.symm]
      | none => rw [hl] at this; simp [lookupLast, lookupKey, hl, hxt, this.symm]

theorem lookupKey_eq_none_of_not_mem {α : Type} (t : Nat) (l : Table α)
    (h : t ∉ tableKeys l) : lookupKey t l = none := by
  induction l with
  | nil => rfl
  | cons x xs ih =>
    simp only [tableKeys, List.map_cons, List.mem_cons, not_or] at h
    rw [lookupKey, if_neg (fun hh => h.1 hh.symm)]
    exact ih h.2

theorem strictSorted_ext {α : Type} :
    ∀ s1 s2 : Table α, List.Pairwise keyLt s1 → List.Pairwise keyLt s2 →
      (∀ t, lookupKey t s1 = lookupKey t s2) → s1 = s2 := by
  intro s1
  induction s1 with
  | nil =>
    intro s2 _ _ h
    cases s2 with
    | nil => rfl
    | cons b l2 =>
      have hb := h b.1
      rw [lookupKey_cons_eq b.1 b l2 rfl] at hb
      simp [lookupKey] at hb
  | cons a s1' ih =>
    intro s2 h1 h2 h
    cases s2 with
    | nil =>
      have ha := h a.1
      rw [lookupKey_cons_eq a.1 a s1' rfl] at ha
      simp [lookupKey] at ha
    | cons b s2' =>
      obtain ⟨ha, h1'⟩ := List.pairwise_cons.mp h1
      obtain ⟨hb, h2'⟩ := List.pairwise_cons.mp h2
      have hab : a.1 = b.1 := by
        rcases Nat.lt_trichotomy a.1 b.1 with hlt | heq | hgt
        · exfalso
          have h3 := h a.1
          rw [lookupKey_cons_eq a.1 a s1' rfl] at h3
          rw [lookupKey_eq_none_of_not_mem a.1 (b :: s2')] at h3
          · cases h3
          · simp only [tableKeys, List.map_cons, List.mem_cons, not_or]
            refine ⟨by omega, fun hmem => ?_⟩
            obtain ⟨p, hp, he⟩ := List.mem_map.mp hmem
            have := hb p hp
            omega
        · exact heq
        · exfalso
          have h3 := (h b.1).symm
          rw [lookupKey_cons_eq b.1 b s2' rfl] at h3
          rw [lookupKey_eq_none_of_not_mem b.1 (a :: s1')] at h3
          · cases h3
          · simp only [tableKeys, List.map_cons, List.mem_cons, not_or]
            refine ⟨by omega, fun hmem => ?_⟩
            obtain ⟨p, hp, he⟩ := List.mem_map.mp hmem
            have := ha p hp
            omega
      have hval : a.2 = b.2 := by
        have h3 := h a.1
        rw [lookupKey_cons_eq a.1 a s1' rfl] at h3
        rw [lookupKey_cons_eq a.1 b s2' hab.symm] at h3
        exact Option.some.inj h3
      have htail : ∀ t, lookupKey t s1' = lookupKey t s2' := by
        intro t
        by_cases ht : t = a.1
        · subst ht
          rw [lookupKey_eq_none_of_not_mem, lookupKey_eq_none_of_not_mem]
          · simp only [tableKeys]
            intro hmem
            obtain ⟨p, hp, he⟩ := List.mem_map.mp hmem
            have := hb p hp
            omega
          · simp only [tableKeys]
            intro hmem
            obtain ⟨p, hp, he⟩ := List.mem_map.mp hmem
            have := ha p hp
            omega
        · have h3 := h t
          rw [lookupKey_cons_ne t a s1' (fun hh => ht hh.symm)] at h3
          rw [lookupKey_cons_ne t b s2' (fun hh => ht (hab.symm ▸ hh).symm)] at h3
          exact h3
      have hteq := ih s2' h1' h2' htail
      obtain ⟨a1, a2⟩ := a
      obtain ⟨b1, b2⟩ := b
      simp only at hab hval
      rw [hteq, hab, hval]

theorem lookupLast_append_of_some {α : Type} (t : Nat) (l1 l2 : Table α) (v : α)
    (h : lookupLast t l2 = some v) : lookupLast t (l1 ++ l2) = some v := by
  induction l1 with
  | nil => simpa using h
  | cons x l1' ih => simp [lookupLast, ih]

theorem lookupLast_append_of_none {α : Type} (t : Nat) (l1 l2 : Table α)
    (h : lookupLast t l2 = none) : lookupLast t (l1 ++ l2) = lookupLast t l1 := by
  induction l1 with
  | nil => simpa using h
  | cons x l1' ih => simp only [List.cons_append, lookupLast, List.append_eq, ih]

theorem combineSeries_some_of_ne_nil {α : Type} (base rt : Table α) (h : rt ≠ []) :
    combineSeries base (some rt) = dedupKeepLast (sortByKey (base ++ rt)) := by
  simp [combineSeries, List.isEmpty_iff, h]

theorem lookupKey_combineSeries {α : Type} (base rt : Table α) (h : rt ≠ []) (t : Nat) :
    lookupKey t (combineSeries base (some rt)) = lookupLast t (base ++ rt) := by
  rw [combineSeries_some_of_ne_nil base rt h, lookupKey_dedupKeepLast,
    lookupLast_sortByKey]

/-- C1: for every base (training) table and every newer table, the merged
table produced by `get_combined_data` is sorted by timestamp with a
unique, strictly increasing index, and for any timestamp present in both
inputs the value from the most-recently-supplied (newer) input wins.
The base table carries the `TimeSeriesTable` invariant (strictly
increasing index); the newer-wins part reads the newer table through its
unique index. -/
theorem combined_data_sorted_newest_wins {α : Type} (base rt : Table α)
    (hbase : List.Pairwise keyLt base) :
    List.Pairwise keyLt (combineSeries base (some rt)) ∧
    ((tableKeys rt).Nodup → ∀ t, t ∈ tableKeys base → t ∈ tableKeys rt →
      lookupKey t (combineSeries base (some rt)) = lookupKey t rt) := by
  by_cases h : rt = []
  · subst h
    refine ⟨by simpa [combineSeries] using hbase, fun _ t _ ht => ?_⟩
    simp [tableKeys] at ht
  · constructor
    · rw [combineSeries_some_of_ne_nil base rt h]
      exact pairwise_lt_dedupKeepLast _ (pairwise_le_sortByKey _)
    · intro hnodup t _ ht
      rw [lookupKey_combineSeries base rt h t]
      obtain ⟨v, hv⟩ := lookupLast_isSome_of_mem t rt ht
      rw [lookupLast_append_of_some t base rt v hv, ← hv]
      exact lookupLast_eq_lookupKey_of_nodup t rt hnodup

/-- Witness for C1 at a concrete overlap: timestamp 2 appears in both
tables and the merged table returns the newer value 9. -/
theorem combined_data_sorted_newest_wins_witness :
    List.Pairwise keyLt (combineSeries [(0, 1), (2, 5)] (some [(2, 9), (3, 4)])) ∧
    lookupKey 2 (combineSeries [(0, 1), (2, 5)] (some [(2, 9), (3, 4)])) = some 9 := by
  have h := combined_data_sorted_newest_wins (α := ℕ) [(0, 1), (2, 5)] [(2, 9), (3, 4)]
    (by decide)
  refine ⟨h.1, ?_⟩
  rw [h.2 (by decide) 2 (by decide) (by decide)]
  decide

/-- C2: the time-series merge is idempotent: merging a table (with the
`TimeSeriesTable` invariant, a strictly increasing unique index) with
itself yields the table unchanged. -/
theorem merge_idempotent {α : Type} (t : Table α) (hsorted : List.Pairwise keyLt t) :
    combineSeries t (some t) = t := by
  by_cases h : t = []
  · simp [combineSeries, h]
  · have hmerge_sorted : List.Pairwise keyLt (combineSeries t (some t)) := by
      rw [combineSeries_some_of_ne_nil t t h]
      exact pairwise_lt_dedupKeepLast _ (pairwise_le_sortByKey _)
    apply strictSorted_ext _ _ hmerge_sorted hsorted
    intro u
    rw [lookupKey_combineSeries t t h u]
    have hnodup := nodup_tableKeys_of_pairwise_lt t hsorted
    have hlk := lookupLast_eq_lookupKey_of_nodup u t hnodup
    cases hv : lookupLast u t with
    | some v => rw [lookupLast_append_of_some u t t v hv, ← hlk, hv]
    | none =>
      rw [lookupLast_append_of_none u t t hv]
      exact hlk

/-- Witness for C2 at a concrete table. -/
theorem merge_idempotent_witness :
    combineSeries [(1, 2), (3, 4)] (some [(1, 2), (3, 4)]) = [(1, 2), (3, 4)] :=
  merge_idempotent (α := ℕ) [(1, 2), (3, 4)] (by decide)

/-- C6: merging with an absent (`None`) or empty newer table returns the
base table unchanged, and when the real-time fetch raises (so
`load_realtime_data` returns no newer tables) the combined data equals
the training data. -/
theorem combine_absent_or_empty {α : Type} :
    (∀ base : Table α, combineSeries base none = base) ∧
    (∀ base : Table α, combineSeries base (some []) = base) ∧
    (∀ (training_air training_weather : Table α) (e : String),
      get_combined_data training_air training_weather
        (load_realtime_data (α := α) (β := Nat) (Except.error e)).1
        (load_realtime_data (α := α) (β := Nat) (Except.error e)).2.1 =
      (training_air, training_weather)) :=
  ⟨fun _ => rfl, fun _ => rfl, fun _ _ _ => rfl⟩

theorem aqi_category_eq (p : ℚ) :
    (pm25_to_vn_aqi p).category =
      if p ≤ 25 then "Good"
      else if p ≤ 50 then "Moderate"
      else if p ≤ 90 then "Unhealthy for Sensitive Groups"
      else if p ≤ 150 then "Unhealthy"
      else if p ≤ 250 then "Very Unhealthy"
      else "Hazardous" := by
  simp only [pm25_to_vn_aqi]
  split_ifs <;> rfl

theorem aqi_index_eq (p : ℚ) :
    (pm25_to_vn_aqi p).aqi = min (pyInt (vn_aqi_pre p)) 500 := by
  simp only [pm25_to_vn_aqi, vn_aqi_pre]
  split_ifs <;> rfl

theorem pyInt_nonneg (q : ℚ) (h : 0 ≤ q) : 0 ≤ pyInt q := by
  simp only [pyInt, if_pos h]
  exact Int.floor_nonneg.mpr h

theorem pyInt_mono {x y : ℚ} (h : x ≤ y) : pyInt x ≤ pyInt y := by
  simp only [pyInt]
  split_ifs with h1 h2 h3
  · exact Int.floor_le_floor h
  · exact absurd (le_trans h1 h) h2
  · refine le_trans (Int.ceil_le.mpr ?_) (Int.floor_nonneg.mpr h3)
    exact_mod_cast le_of_not_le h1
  · exact Int.ceil_le_ceil h

theorem vn_aqi_pre_nonneg (p : ℚ) (h : 0 ≤ p) : 0 ≤ vn_aqi_pre p := by
  unfold vn_aqi_pre
  split_ifs <;>
    first
      | linarith
      | (have hm : (0 : ℚ) ≤ min (p - 250) 250 := le_min (by linarith) (by norm_num)
         linarith)

theorem vn_aqi_pre_mono {x y : ℚ} (h : x ≤ y) : vn_aqi_pre x ≤ vn_aqi_pre y := by
  unfold vn_aqi_pre
  split_ifs <;>
    first
      | linarith
      | (have hm : (0 : ℚ) ≤ min (y - 250) 250 := le_min (by linarith) (by norm_num)
         linarith)
      | (have hm : min (x - 250) 250 ≤ min (y - 250) 250 :=
           min_le_min (by linarith) le_rfl
         linarith)

/-- C4: for every non-negative PM2.5 concentration, `pm25_to_vn_aqi`
returns one of the six category tiers and a numeric AQI index in
`[0, 500]`. -/
theorem pm25_category_and_range (p : ℚ) (h : 0 ≤ p) :
    (pm25_to_vn_aqi p).category ∈ vnAqiTiers ∧
    0 ≤ (pm25_to_vn_aqi p).aqi ∧ (pm25_to_vn_aqi p).aqi ≤ 500 := by
  refine ⟨?_, ?_, ?_⟩
  · rw [aqi_category_eq]
    split_ifs <;> simp [vnAqiTiers]
  · rw [aqi_index_eq]
    exact le_min (pyInt_nonneg _ (vn_aqi_pre_nonneg p h)) (by norm_num)
  · rw [aqi_index_eq]
    exact min_le_right _ _

/-- Witness for C4 at PM2.5 = 37. -/
theorem pm25_category_and_range_witness :
    (pm25_to_vn_aqi 37).category ∈ vnAqiTiers ∧
    0 ≤ (pm25_to_vn_aqi 37).aqi ∧ (pm25_to_vn_aqi 37).aqi ≤ 500 :=
  pm25_category_and_range 37 (by norm_num)

/-- C3: the boundary values 25, 50, 90, 150, 250 map to the lower tier
(inclusive-lower-tier rule); PM2.5 = 25.0 is "Good", 25.1 is "Moderate",
and 999 is "Hazardous" with numeric index exactly 500. -/
theorem pm25_boundary_tiers :
    (pm25_to_vn_aqi 25).category = "Good" ∧
    (pm25_to_vn_aqi 50).category = "Moderate" ∧
    (pm25_to_vn_aqi 90).category = "Unhealthy for Sensitive Groups" ∧
    (pm25_to_vn_aqi 150).category = "Unhealthy" ∧
    (pm25_to_vn_aqi 250).category = "Very Unhealthy" ∧
    (pm25_to_vn_aqi (251 / 10)).category = "Moderate" ∧
    (pm25_to_vn_aqi 999).category = "Hazardous" ∧
    (pm25_to_vn_aqi 999).aqi = 500 := by
  refine ⟨?_, ?_, ?_, ?_, ?_, ?_, ?_, ?_⟩ <;>
    first
      | (rw [aqi_category_eq]; norm_num)
      | (rw [aqi_index_eq]
         rw [show vn_aqi_pre 999 = 500 by rw [vn_aqi_pre]; norm_num [min_def]]
         rw [show pyInt 500 = 500 by rw [pyInt]; norm_num]
         norm_num)

/-- C8: within a tier (equal category labels), the AQI index is monotone
with concentration. -/
theorem aqi_monotone_within_tier (x y : ℚ) (hx : 0 ≤ x) (hxy : x ≤ y)
    (hcat : (pm25_to_vn_aqi x).category = (pm25_to_vn_aqi y).category) :
    (pm25_to_vn_aqi x).aqi ≤ (pm25_to_vn_aqi y).aqi := by
  rw [aqi_index_eq, aqi_index_eq]
  exact min_le_min (pyInt_mono (vn_aqi_pre_mono hxy)) le_rfl

/-- Witness for C8 at 10 ≤ 20 inside the "Good" tier. -/
theorem aqi_monotone_within_tier_witness :
    (pm25_to_vn_aqi 10).aqi ≤ (pm25_to_vn_aqi 20).aqi :=
  aqi_monotone_within_tier 10 20 (by norm_num) (by norm_num)
    (by rw [aqi_category_eq, aqi_category_eq]; norm_num)

/-- C9: `get_health_recommendations` is total: each of the six known
category labels yields its own recommendation record, and any other label
falls back to the "Good" record. -/
theorem health_recommendations_total :
    get_health_recommendations "Good" = rec_good ∧
    get_health_recommendations "Moderate" = rec_moderate ∧
    get_health_recommendations "Unhealthy for Sensitive Groups" = rec_usg ∧
    get_health_recommendations "Unhealthy" = rec_unhealthy ∧
    get_health_recommendations "Very Unhealthy" = rec_very_unhealthy ∧
    get_health_recommendations "Hazardous" = rec_hazardous ∧
    (∀ s : String, s ∉ vnAqiTiers → get_health_recommendations s = rec_good) := by
  refine ⟨by simp [get_health_recommendations, healthRecTable, List.lookup],
    by simp [get_health_recommendations, healthRecTable, List.lookup],
    by simp [get_health_recommendations, healthRecTable, List.lookup],
    by simp [get_health_recommendations, healthRecTable, List.lookup],
    by simp [get_health_recommendations, healthRecTable, List.lookup],
    by simp [get_health_recommendations, healthRecTable, List.lookup], ?_⟩
  intro s hs
  simp only [vnAqiTiers, List.mem_cons, List.not_mem_nil, or_false, not_or] at hs
  obtain ⟨h1, h2, h3, h4, h5, h6⟩ := hs
  have b1 : (s == "Good") = false := beq_eq_false_iff_ne.mpr h1
  have b2 : (s == "Moderate") = false := beq_eq_false_iff_ne.mpr h2
  have b3 : (s == "Unhealthy for Sensitive Groups") = false := beq_eq_false_iff_ne.mpr h3
  have b4 : (s == "Unhealthy") = false := beq_eq_false_iff_ne.mpr h4
  have b5 : (s == "Very Unhealthy") = false := beq_eq_false_iff_ne.mpr h5
  have b6 : (s == "Hazardous") = false := beq_eq_false_iff_ne.mpr h6
  simp [get_health_recommendations, healthRecTable, List.lookup, b1, b2, b3, b4, b5, b6]

/-- Witness for C9 at an unknown label. -/
theorem health_recommendations_total_witness :
    get_health_recommendations "Smoke" = rec_good :=
  health_recommendations_total.2.2.2.2.2.2 "Smoke" (by simp [vnAqiTiers])

/-- C5: for every model variant (ETS, ARIMA, ARIMAX), if the refit step
fails for any reason (any exception during fetch or fitting), the refit
function returns without raising, yielding the unchanged training data
and an error message, and the request path then falls back to the
pre-trained model with a non-fatal warning. -/
theorem refit_failure_falls_back {μ : Type} (pretrained : μ) (air_df : Table ℚ) :
    (∀ (training : Table ℚ) (fa fr : Except String (Table ℚ))
        (fit : Table ℚ → Except String μ),
      refitFetchOrFitFails fa fr training fit →
      ∃ msg, refit_ets_model training fa fr fit = (none, training, some msg) ∧
        handle_refit_result pretrained air_df (refit_ets_model training fa fr fit) =
          (some pretrained, air_df, true)) ∧
    (∀ (training : Table ℚ) (fa fr : Except String (Table ℚ))
        (fit : Table ℚ → Except String μ) (order : ℕ × ℕ × ℕ),
      refitFetchOrFitFails fa fr training (fun c => fit c) →
      ∃ msg, refit_arima_model training fa fr (fun c _ => fit c) order =
          (none, training, some msg) ∧
        handle_refit_result pretrained air_df
            (refit_arima_model training fa fr (fun c _ => fit c) order) =
          (some pretrained, air_df, true)) ∧
    (∀ (training_air training_weather : Table ℚ)
        (fa fw : Except String (Table ℚ))
        (frt : Except String (Table ℚ × Table ℚ))
        (fit : Table ℚ → Table ℚ → Except String μ) (order : ℕ × ℕ × ℕ),
      arimaxFetchOrFitFails fa fw frt training_air training_weather fit →
      ∃ msg, refit_arimax_model training_air training_weather fa fw frt
          (fun ca cw _ => fit ca cw) order = (none, training_air, some msg) ∧
        handle_refit_result pretrained air_df
            (refit_arimax_model training_air training_weather fa fw frt
              (fun ca cw _ => fit ca cw) order) =
          (some pretrained, air_df, true)) := by
  refine ⟨?_, ?_, ?_⟩
  · intro training fa fr fit hfail
    rcases hfail with ⟨e, rfl⟩ | ⟨e, rfl⟩ | ⟨recent, rt, e, rfl, rfl, hfit⟩
    · exact ⟨e, rfl, rfl⟩
    · cases fa with
      | error e2 => exact ⟨e2, rfl, rfl⟩
      | ok recent => exact ⟨e, rfl, rfl⟩
    · refine ⟨e, ?_, ?_⟩ <;> simp only [refit_ets_model, handle_refit_result, hfit]
  · intro training fa fr fit order hfail
    rcases hfail with ⟨e, rfl⟩ | ⟨e, rfl⟩ | ⟨recent, rt, e, rfl, rfl, hfit⟩
    · exact ⟨e, rfl, rfl⟩
    · cases fa with
      | error e2 => exact ⟨e2, rfl, rfl⟩
      | ok recent => exact ⟨e, rfl, rfl⟩
    · have hfit2 : fit (dedupKeepLast (sortByKey (training ++ recent ++ rt))) =
          Except.error e := hfit
      refine ⟨e, ?_, ?_⟩ <;> simp only [refit_arima_model, handle_refit_result, hfit2]
  · intro ta tw fa fw frt fit order hfail
    rcases hfail with ⟨e, rfl⟩ | ⟨e, rfl⟩ | ⟨e, rfl⟩ |
      ⟨ra, rw2, rt, e, rfl, rfl, rfl, hfit⟩
    · exact ⟨e, rfl, rfl⟩
    · cases fa with
      | error e2 => exact ⟨e2, rfl, rfl⟩
      | ok ra => exact ⟨e, rfl, rfl⟩
    · cases fa with
      | error e2 => exact ⟨e2, rfl, rfl⟩
      | ok ra =>
        cases fw with
        | error e3 => exact ⟨e3, rfl, rfl⟩
        | ok rw2 => exact ⟨e, rfl, rfl⟩
    · refine ⟨e, ?_, ?_⟩ <;> simp only [refit_arimax_model, handle_refit_result, hfit]

/-- Witness for C5: a failing fetch makes the ETS refit return the
unchanged training data and the request path keep the pre-trained model. -/
theorem refit_failure_falls_back_witness :
    ∃ msg, refit_ets_model [] (Except.error "network down") (Except.ok [])
        (fun _ => Except.ok (0 : ℕ)) = (none, [], some msg) ∧
      handle_refit_result 7 [] (refit_ets_model [] (Except.error "network down")
        (Except.ok []) (fun _ => Except.ok (0 : ℕ))) = (some 7, [], true) :=
  (refit_failure_falls_back 7 []).1 [] (Except.error "network down") (Except.ok [])
    (fun _ => Except.ok 0) (Or.inl ⟨"network down", rfl⟩)

theorem chain_succ_range' (n s : Nat) :
    List.Chain' (fun a b => b = a + 1) (List.range' s n) := by
  induction n generalizing s with
  | zero => simp
  | succ m ih =>
    rw [show List.range' s (m + 1) = s :: List.range' (s + 1) m from rfl]
    refine List.chain'_cons'.mpr ⟨?_, ih (s + 1)⟩
    intro b hb
    cases m with
    | zero => simp at hb
    | succ k =>
      rw [show List.range' (s + 1) (k + 1) = (s + 1) :: List.range' (s + 2) k from rfl] at hb
      simp at hb
      omega

/-- C7: for every horizon 1 ≤ N ≤ 6 and non-empty historical table, the
forecast grid has exactly N timestamps, starting one hour after the last
observed timestamp and increasing by one hour between consecutive
entries. -/
theorem forecast_horizon_hourly {α : Type} (hist : Table α) (n : Nat)
    (h1 : 1 ≤ n) (h2 : n ≤ 6) (hne : hist ≠ []) :
    ∃ last_timestamp ts, (tableKeys hist).getLast? = some last_timestamp ∧
      forecast_timestamps hist n = some ts ∧
      ts.length = n ∧
      ts.head? = some (last_timestamp + 1) ∧
      List.Chain' (fun a b => b = a + 1) ts := by
  have hkeys : tableKeys hist ≠ [] := by
    intro h
    exact hne (List.map_eq_nil_iff.mp h)
  obtain ⟨lt, hlt⟩ := Option.isSome_iff_exists.mp (List.getLast?_isSome.mpr hkeys)
  refine ⟨lt, List.range' (lt + 1) n, hlt, ?_, ?_, ?_, ?_⟩
  · simp [forecast_timestamps, hlt]
  · simp
  · cases n with
    | zero => omega
    | succ m => rfl
  · exact chain_succ_range' n (lt + 1)

/-- Witness for C7: a one-row table and a 3-hour horizon. -/
theorem forecast_horizon_hourly_witness :
    ∃ last_timestamp ts, (tableKeys [(5, (1 : ℕ))]).getLast? = some last_timestamp ∧
      forecast_timestamps [(5, (1 : ℕ))] 3 = some ts ∧
      ts.length = 3 ∧ ts.head? = some (last_timestamp + 1) ∧
      List.Chain' (fun a b => b = a + 1) ts :=
  forecast_horizon_hourly [(5, (1 : ℕ))] 3 (by norm_num) (by norm_num) (by simp)

theorem range'_glue (a b c : Nat) (h1 : a ≤ b) (h2 : b ≤ c) :
    List.range' a (b - a) ++ List.range' b (c - b) = List.range' a (c - a) := by
  have h := List.range'_append_1 a (b - a) (c - b)
  rw [show a + (b - a) = b by omega] at h
  rw [h]
  congr 1
  omega

theorem concatGrids_cons (iv : DTime × DTime) (l : List (DTime × DTime)) :
    concatGrids (iv :: l) = hourGrid iv ++ concatGrids l := rfl

theorem toHours_jan1 (y : Nat) : toHours ⟨y, 1, 1, 0⟩ = 24 * daysBeforeYear y := by
  simp [toHours, daysBeforeMonth]

theorem toHours_dec31 (y : Nat) :
    toHours ⟨y, 12, 31, 23⟩ + 1 = 24 * daysBeforeYear (y + 1) := by
  have hstep : daysBeforeYear (y + 1) = daysBeforeYear y + daysInYear y := rfl
  rw [hstep]
  cases hl : isLeap y <;>
    simp [toHours, daysBeforeMonth, monthLengths, hl, daysInYear, List.take,
      List.sum_cons] <;>
    omega

theorem year_boundary (y : Nat) :
    toHours ⟨y, 12, 31, 23⟩ + 1 = toHours ⟨y + 1, 1, 1, 0⟩ := by
  rw [toHours_dec31, toHours_jan1]

theorem daysBeforeYear_mono {a b : Nat} (h : a ≤ b) :
    daysBeforeYear a ≤ daysBeforeYear b := by
  induction b with
  | zero =>
    cases Nat.eq_zero_of_le_zero h
    exact le_rfl
  | succ n ih =>
    rcases Nat.lt_or_ge a (n + 1) with hlt | hge
    · have h1 := ih (by omega)
      have h2 : daysBeforeYear (n + 1) = daysBeforeYear n + daysInYear n := rfl
      omega
    · have : a = n + 1 := by omega
      subst this
      exact le_rfl

theorem daysBeforeMonth_add_le (y m : Nat) (hm : m < 13) (h1 : 1 ≤ m) :
    daysBeforeMonth (isLeap y) m + (monthLengths (isLeap y)).getD (m - 1) 0 ≤
      daysInYear y := by
  have hall : ∀ (b : Bool) (k : Nat), k < 13 → 1 ≤ k →
      daysBeforeMonth b k + (monthLengths b).getD (k - 1) 0 ≤
        (if b then 366 else 365) := by decide
  have h := hall (isLeap y) m hm h1
  unfold daysInYear
  exact h

theorem toHours_lt_of_valid (d : DTime) (hv : ValidDT d) :
    toHours d < 24 * daysBeforeYear (d.year + 1) := by
  obtain ⟨h1, h2, h3, h4, h5⟩ := hv
  have hbound := daysBeforeMonth_add_le d.year d.month (by omega) h1
  have hstep : daysBeforeYear (d.year + 1) = daysBeforeYear d.year + daysInYear d.year := rfl
  unfold toHours
  omega

theorem year_chain (t : DTime) :
    ∀ (k y : Nat),
      List.Chain' (fun iv1 iv2 => toHours iv1.2 + 1 = toHours iv2.1)
        (((List.range' y k).map
            (fun year => ((⟨year, 1, 1, 0⟩ : DTime), (⟨year, 12, 31, 23⟩ : DTime)))) ++
          [((⟨y + k, 1, 1, 0⟩ : DTime), t)]) := by
  intro k
  induction k with
  | zero =>
    intro y
    simp
  | succ m ih =>
    intro y
    rw [show List.range' y (m + 1) = y :: List.range' (y + 1) m from rfl]
    rw [List.map_cons, List.cons_append]
    refine List.chain'_cons'.mpr ⟨?_, ?_⟩
    · intro iv2 hiv2
      cases m with
      | zero =>
        simp at hiv2
        subst hiv2
        simpa using year_boundary y
      | succ k2 =>
        rw [show List.range' (y + 1) (k2 + 1) = (y + 1) :: List.range' (y + 2) k2
          from rfl] at hiv2
        simp at hiv2
        subst hiv2
        simpa using year_boundary y
    · have h := ih (y + 1)
      rw [show y + (m + 1) = y + 1 + m by omega]
      exact h

theorem year_grid (t : DTime) :
    ∀ (k y : Nat), 24 * daysBeforeYear (y + k) ≤ toHours t + 1 →
      concatGrids (((List.range' y k).map
          (fun year => ((⟨year, 1, 1, 0⟩ : DTime), (⟨year, 12, 31, 23⟩ : DTime)))) ++
        [((⟨y + k, 1, 1, 0⟩ : DTime), t)]) =
      List.range' (24 * daysBeforeYear y) (toHours t + 1 - 24 * daysBeforeYear y) := by
  intro k
  induction k with
  | zero =>
    intro y hy
    simp [concatGrids, hourGrid, toHours_jan1]
  | succ m ih =>
    intro y hy
    rw [show List.range' y (m + 1) = y :: List.range' (y + 1) m from rfl]
    rw [List.map_cons, List.cons_append, concatGrids_cons]
    have hstep : 24 * daysBeforeYear (y + 1 + m) ≤ toHours t + 1 := by
      rw [show y + 1 + m = y + (m + 1) by omega]
      exact hy
    have hrec := ih (y + 1) hstep
    rw [show y + (m + 1) = y + 1 + m by omega, hrec]
    unfold hourGrid
    dsimp only
    rw [toHours_dec31, toHours_jan1]
    exact range'_glue (24 * daysBeforeYear y) (24 * daysBeforeYear (y + 1))
      (toHours t + 1)
      (by have := daysBeforeYear_mono (show y ≤ y + 1 by omega); omega)
      (by
        have h1 := daysBeforeYear_mono (show y + 1 ≤ y + 1 + m by omega)
        omega)

/-- C10: for datetimes with start year ≤ end year, `year_interval`
partitions the range at hourly granularity: the first interval starts at
`datetime_from`, the last ends at `datetime_to`, each interval's end
(Dec 31, 23:00) is exactly one hour before the next interval's start
(Jan 1, 00:00), and the concatenated hourly grids equal the single
contiguous hourly grid of the whole range (no gaps, no overlaps). -/
theorem year_interval_partitions (f t : DTime)
    (hy : f.year ≤ t.year) (hvf : ValidDT f) (hvt : ValidDT t) :
    year_interval f t ≠ [] ∧
    (year_interval f t).head?.map Prod.fst = some f ∧
    (year_interval f t).getLast?.map Prod.snd = some t ∧
    List.Chain' (fun iv1 iv2 => toHours iv1.2 + 1 = toHours iv2.1) (year_interval f t) ∧
    concatGrids (year_interval f t) =
      List.range' (toHours f) (toHours t + 1 - toHours f) := by
  by_cases heq : f.year = t.year
  · have hexpand : year_interval f t = [(f, t)] := by
      simp only [year_interval]
      rw [if_pos heq]
    rw [hexpand]
    refine ⟨by simp, by simp, by simp, by simp, ?_⟩
    simp [concatGrids, hourGrid]
  · obtain ⟨K, hK⟩ : ∃ K, t.year = f.year + 1 + K :=
      ⟨t.year - (f.year + 1), by omega⟩
    have hexpand : year_interval f t =
        (f, (⟨f.year, 12, 31, 23⟩ : DTime)) ::
          ((List.range' (f.year + 1) K).map
            (fun year => ((⟨year, 1, 1, 0⟩ : DTime), (⟨year, 12, 31, 23⟩ : DTime)))
          ++ [((⟨f.year + 1 + K, 1, 1, 0⟩ : DTime), t)]) := by
      simp only [year_interval]
      rw [if_neg heq, List.cons_append, hK]
      rw [show f.year + 1 + K - (f.year + 1) = K by omega]
    rw [hexpand]
    have hcond : 24 * daysBeforeYear (f.year + 1 + K) ≤ toHours t + 1 := by
      have ht : 24 * daysBeforeYear t.year ≤ toHours t := by
        unfold toHours
        omega
      rw [← hK]
      omega
    refine ⟨by simp, by simp, ?_, ?_, ?_⟩
    · rw [← List.cons_append, List.getLast?_concat]
      rfl
    · refine List.chain'_cons'.mpr ⟨?_, year_chain t K (f.year + 1)⟩
      intro iv2 hiv2
      cases K with
      | zero =>
        simp at hiv2
        subst hiv2
        simpa using year_boundary f.year
      | succ k2 =>
        rw [show List.range' (f.year + 1) (k2 + 1)
            = (f.year + 1) :: List.range' (f.year + 2) k2 from rfl] at hiv2
        simp at hiv2
        subst hiv2
        simpa using year_boundary f.year
    · rw [concatGrids_cons, year_grid t K (f.year + 1) hcond]
      unfold hourGrid
      dsimp only
      rw [toHours_dec31]
      exact range'_glue (toHours f) (24 * daysBeforeYear (f.year + 1)) (toHours t + 1)
        (le_of_lt (toHours_lt_of_valid f hvf))
        (by
          have h1 := daysBeforeYear_mono (show f.year + 1 ≤ f.year + 1 + K by omega)
          omega)

/-- Witness for C10: a three-year range from year 1 (Nov 30, 05:00) to
year 3 (Feb 3, 07:00). -/
theorem year_interval_partitions_witness :
    year_interval ⟨1, 11, 30, 5⟩ ⟨3, 2, 3, 7⟩ ≠ [] ∧
    (year_interval ⟨1, 11, 30, 5⟩ ⟨3, 2, 3, 7⟩).head?.map Prod.fst =
      some ⟨1, 11, 30, 5⟩ ∧
    (year_interval ⟨1, 11, 30, 5⟩ ⟨3, 2, 3, 7⟩).getLast?.map Prod.snd =
      some ⟨3, 2, 3, 7⟩ ∧
    List.Chain' (fun iv1 iv2 => toHours iv1.2 + 1 = toHours iv2.1)
      (year_interval ⟨1, 11, 30, 5⟩ ⟨3, 2, 3, 7⟩) ∧
    concatGrids (year_interval ⟨1, 11, 30, 5⟩ ⟨3, 2, 3, 7⟩) =
      List.range' (toHours ⟨1, 11, 30, 5⟩)
        (toHours ⟨3, 2, 3, 7⟩ + 1 - toHours ⟨1, 11, 30, 5⟩) :=
  year_interval_partitions ⟨1, 11, 30, 5⟩ ⟨3, 2, 3, 7⟩ (by decide)
    (by unfold ValidDT; decide) (by unfold ValidDT; decide)
